import Mathlib

/-!
Verification of `repo_manager.py`, a multi-repository git synchronization
orchestrator.  The Python source is shallowly embedded: each helper that
inspects captured command output becomes a pure Lean function over the
output text, and the per-repository decision logic of `process` becomes a
function from the mode flags and a per-repository oracle of command
outputs to either an escaped exception or an outcome together with the
trace of git operations invoked.
-/

namespace RepoManager

/-- Whether the first character list is an initial segment of the second. -/
def listStarts : List Char → List Char → Bool
  | [], _ => true
  | _ :: _, [] => false
  | a :: as, b :: bs => a == b && listStarts as bs

/-- Whether the first character list occurs contiguously in the second. -/
def listInfix (needle : List Char) : List Char → Bool
  | [] => listStarts needle []
  | b :: bs => listStarts needle (b :: bs) || listInfix needle bs

/-- Python's `needle in hay` substring test. -/
def pyIn (needle hay : String) : Bool :=
  listInfix needle.toList hay.toList

/-- Split a character list on a separator character, keeping empty groups,
with the semantics of Python `str.split(sep)` for a one-character
separator (which is also `String.splitOn` for that separator). -/
def splitChar (c : Char) : List Char → List (List Char)
  | [] => [[]]
  | a :: as =>
    let r := splitChar c as
    if a == c then [] :: r
    else
      match r with
      | [] => [[a]]
      | g :: gs => (a :: g) :: gs

/-- Python `str.isspace`-style whitespace predicate over the characters
`str.strip` removes (the ASCII whitespace occurring in git output). -/
def pyIsSpace (c : Char) : Bool :=
  c == ' ' || c == '\t' || c == '\n' || c == '\r' || c == '\x0b' || c == '\x0c'

/-- Python `str.strip()`: drop leading and trailing whitespace. -/
def pyStrip (s : String) : String :=
  ⟨((s.toList.dropWhile pyIsSpace).reverse.dropWhile pyIsSpace).reverse⟩

/-- Python `str.startswith(p)`. -/
def pyStartsWith (s p : String) : Bool :=
  listStarts p.toList s.toList

/-- Python `str.lower()` on the ASCII range (the failure markers the code
searches for are ASCII). -/
def pyCharLower (c : Char) : Char :=
  if 'A' ≤ c && c ≤ 'Z' then Char.ofNat (c.toNat + 32) else c

/-- Python `str.lower()` character by character. -/
def pyLower (s : String) : String :=
  ⟨s.toList.map pyCharLower⟩

/-- Python `str.splitlines` restricted to newline-separated text: the empty
string yields no lines, and a trailing newline does not contribute a final
empty line.  (The source feeds these functions text captured from
subprocesses with `text=True`, so `\n` is the only line separator.) -/
def pySplitlines (s : String) : List String :=
  if s = "" then []
  else
    let parts := (splitChar '\n' s.toList).map fun cs => String.mk cs
    if parts.getLast? = some "" then parts.dropLast else parts

/-- Python truthiness test `not br` for an optional string: `None` and the
empty string are falsy. -/
def pyFalsy : Option String → Bool
  | none => true
  | some s => s == ""

/-- Embedding of `is_clean`, at the level of the status-line list obtained
from `run("git status --porcelain").strip().splitlines()`: iterate the
lines; a line starting with `??` is skipped; any other line (including an
empty one) makes the repository dirty; an exhausted list is clean. -/
def is_clean_lines : List String → Bool
  | [] => true
  | line :: rest => if pyStartsWith line "??" then is_clean_lines rest else false

/-- Embedding of `is_clean` over the raw captured output of
`git status --porcelain`. -/
def is_clean (statusOut : String) : Bool :=
  is_clean_lines (pySplitlines (pyStrip statusOut))

/-- Embedding of `default_branch` over the captured output of
`git remote show origin`.  The first line containing `"HEAD branch"` is
split on `":"` and element 1 is taken: when that line has no colon the
Python code raises an uncaught `IndexError`, modelled as `.error`.  With
no matching line the function returns `None`. -/
def defaultBranchLines : List String → Except String (Option String)
  | [] => .ok none
  | line :: rest =>
    if pyIn "HEAD branch" line then
      match ((splitChar ':' line.toList).map fun cs => String.mk cs).get? 1 with
      | some seg => .ok (some (pyStrip seg))
      | none => .error "IndexError"
    else defaultBranchLines rest

/-- Embedding of `default_branch` (see `defaultBranchLines`). -/
def default_branch (remoteShowOut : String) : Except String (Option String) :=
  defaultBranchLines (pySplitlines remoteShowOut)

/-- The git operations `process` can invoke on a repository, in the order
they are issued.  `loadSSH` stands for the `load_ssh` credential-loading
step (ssh-agent start plus ssh-add). -/
inductive Cmd : Type where
  | status
  | stash
  | fetch
  | loadSSH
  | remoteShow
  | checkout (branch : String)
  | pull
deriving DecidableEq, Repr

/-- Per-repository outcome tag and note, as printed by `process`:
`[OK] (note)`, `[SKIP] (reason)`, or `[FORCE] (note)`. -/
inductive Outcome : Type where
  | ok (note : String)
  | skip (reason : String)
  | force (note : String)
deriving DecidableEq, Repr

/-- Oracle of captured command outputs for one repository: each field is
the text the corresponding git command would produce when invoked during
this repository's processing.  `fetchRetryOut` is the output of the second
fetch, issued only on a permission-denied retry (the code never inspects
it). -/
structure GitEnv : Type where
  statusOut : String
  fetchOut : String
  fetchRetryOut : String
  remoteShowOut : String
  checkoutOut : String
  pullOut : String

/-- Embedding of `fetch`: run `git fetch --all --prune`; if the captured
output contains `"Permission denied"`, invoke `load_ssh` and run the fetch
once more (the retry's output is not checked).  Returns the trace of
operations issued. -/
def fetchTrace (o : GitEnv) : List Cmd :=
  if pyIn "Permission denied" o.fetchOut then
    [Cmd.fetch, Cmd.loadSSH, Cmd.fetch]
  else
    [Cmd.fetch]

/-- Embedding of the body of `process` for a single repository: given the
mode flags and the repository's command-output oracle, produce either an
escaped exception (the uncaught `IndexError` of `default_branch`) or the
printed outcome together with the ordered trace of operations invoked. -/
def process_one (latest forceMode : Bool) (o : GitEnv) :
    Except String (Outcome × List Cmd) :=
  if forceMode && !(is_clean o.statusOut) then
    .ok (.force "stash + pull", [Cmd.status, Cmd.stash] ++ fetchTrace o ++ [Cmd.pull])
  else if !(is_clean o.statusOut) then
    .ok (.skip "uncommitted", [Cmd.status])
  else if latest then
    match default_branch o.remoteShowOut with
    | .error e => .error e
    | .ok obr =>
      if pyFalsy obr then
        .ok (.skip "no default branch", [Cmd.status] ++ fetchTrace o ++ [Cmd.remoteShow])
      else if pyIn "error" (pyLower o.checkoutOut) || pyIn "fatal" (pyLower o.checkoutOut) then
        .ok (.skip "checkout failed",
             [Cmd.status] ++ fetchTrace o ++ [Cmd.remoteShow, Cmd.checkout (obr.getD "")])
      else if pyIn "error" (pyLower o.pullOut) || pyIn "fatal" (pyLower o.pullOut) then
        .ok (.skip "pull failed",
             [Cmd.status] ++ fetchTrace o ++ [Cmd.remoteShow, Cmd.checkout (obr.getD ""), Cmd.pull])
      else
        .ok (.ok ("latest: " ++ obr.getD ""),
             [Cmd.status] ++ fetchTrace o ++ [Cmd.remoteShow, Cmd.checkout (obr.getD ""), Cmd.pull])
  else
    .ok (.ok "pull", [Cmd.status] ++ fetchTrace o ++ [Cmd.pull])

/-- Embedding of the `process` loop over the discovered repositories: the
first component collects the outcomes actually produced (printed), the
second is `some e` when an exception escaped the loop, aborting the batch
before the remaining repositories were processed. -/
def process (latest forceMode : Bool) : List GitEnv → List Outcome × Option String
  | [] => ([], none)
  | o :: rest =>
    match process_one latest forceMode o with
    | .error e => ([], some e)
    | .ok (out, _) =>
      let r := process latest forceMode rest
      (out :: r.1, r.2)

/-- The exact stash command issued by `git_stash`. -/
def git_stash_cmd : String :=
  "git stash push -u -m \x27auto-stash via repo_manager --force\x27"

/-- Whether a `git stash push` command line carries one of the flags that
make the stash include untracked files (`-u`/`--include-untracked`, or
`-a`/`--all` which also takes ignored files).  Per the spec, stash
includes only tracked changes unless explicitly flagged. -/
def stash_cmd_includes_untracked (cmd : String) : Bool :=
  let toks := (splitChar ' ' cmd.toList).map fun cs => String.mk cs
  toks.contains "-u" || toks.contains "--include-untracked" ||
    toks.contains "-a" || toks.contains "--all"

/-- A working tree reduced to what the stash claim distinguishes: the
tracked-but-modified files and the untracked files. -/
structure WorkTree : Type where
  trackedModified : List String
  untracked : List String
deriving DecidableEq, Repr

/-- Effect of `git stash push` on the working tree: tracked modifications
are always set aside; untracked files are set aside (removed from the
working tree) exactly when the include-untracked flag is given. -/
def stash_effect (includeUntracked : Bool) (wt : WorkTree) : WorkTree :=
  { trackedModified := []
    untracked := if includeUntracked then [] else wt.untracked }

/-- Dispatch of the `__main__` block: fewer than two `sys.argv` entries
(no arguments) shows help; otherwise `--pull` runs `process(latest=False,
force=("--force" in args))`, else `--latest` runs `process(latest=True,
force=False)`, else help. -/
inductive MainAction : Type where
  | showHelp
  | runProcess (latest forceMode : Bool)
deriving DecidableEq, Repr

/-- Embedding of the entry point's argument dispatch over `sys.argv[1:]`. -/
def main_dispatch (args : List String) : MainAction :=
  if args.isEmpty then .showHelp
  else if args.contains "--pull" then .runProcess false (args.contains "--force")
  else if args.contains "--latest" then .runProcess true false
  else .showHelp

mutual

/-- Directory tree as enumerated by the operating system during
`os.walk`: a name, whether the directory directly contains a `.git`
entry, and the child directories in the order the OS lists them. -/
inductive FSDir : Type where
  | mk : String → Bool → FSList → FSDir

/-- Ordered list of sibling directories (children as enumerated). -/
inductive FSList : Type where
  | nil : FSList
  | cons : FSDir → FSList → FSList

end

/-- Name of a directory node. -/
def FSDir.name : FSDir → String
  | .mk n _ _ => n

/-- Whether a directory node directly contains a `.git` entry. -/
def FSDir.hasGit : FSDir → Bool
  | .mk _ g _ => g

/-- Children of a directory node, in enumeration order. -/
def FSDir.children : FSDir → FSList
  | .mk _ _ cs => cs

/-- Conversion of the sibling list to a plain `List`. -/
def FSList.toList : FSList → List FSDir
  | .nil => []
  | .cons d ds => d :: ds.toList

mutual

/-- Embedding of the `os.walk`-based collection in `get_repos`: visit the
directory (top-down), record its path when it directly contains `.git`,
then recurse into the children in enumeration order. -/
def walkRepos : FSDir → String → List String
  | .mk name g cs, path =>
    (if g then [path ++ "/" ++ name] else []) ++ walkReposList cs (path ++ "/" ++ name)

/-- `walkRepos` mapped over a sibling list, preserving order. -/
def walkReposList : FSList → String → List String
  | .nil, _ => []
  | .cons d ds, path => walkRepos d path ++ walkReposList ds path

end

mutual

/-- Depth-first pre-order traversal recording every directory with its
`.git` flag, in the same visit order as `walkRepos`. -/
def walkAll : FSDir → String → List (String × Bool)
  | .mk name g cs, path =>
    (path ++ "/" ++ name, g) :: walkAllList cs (path ++ "/" ++ name)

/-- `walkAll` mapped over a sibling list, preserving order. -/
def walkAllList : FSList → String → List (String × Bool)
  | .nil, _ => []
  | .cons d ds, path => walkAll d path ++ walkAllList ds path

end

/-- Embedding of `get_repos` over the two search roots: a root that does
not exist (`none`) contributes nothing; otherwise its subtree is walked. -/
def get_repos (roots : List (Option FSDir)) : List String :=
  roots.foldr (fun r acc => (match r with | none => [] | some t => walkRepos t "") ++ acc) []

/-! Concrete command-output oracles used by counterexamples and witnesses. -/

/-- A clean repository whose fast-forward pull fails. -/
def envPlainPullFatal : GitEnv :=
  { statusOut := "", fetchOut := "", fetchRetryOut := "", remoteShowOut := "", checkoutOut := "",
    pullOut := "fatal: Not possible to fast-forward, aborting." }

/-- A clean repository whose remote-info output has a `HEAD branch` line
with no colon. -/
def envHeadNoColon : GitEnv :=
  { statusOut := "", fetchOut := "", fetchRetryOut := "", remoteShowOut := "HEAD branch main",
    checkoutOut := "", pullOut := "" }

/-- A clean repository whose remote-info output is well formed and whose
checkout and pull succeed. -/
def envCleanOk : GitEnv :=
  { statusOut := "", fetchOut := "", fetchRetryOut := "", remoteShowOut := "  HEAD branch: main",
    checkoutOut := "", pullOut := "" }

/-- A repository with one tracked modification. -/
def envDirty : GitEnv :=
  { statusOut := " M file.txt", fetchOut := "", fetchRetryOut := "", remoteShowOut := "",
    checkoutOut := "", pullOut := "" }

/-- A clean repository whose remote-info output has no `HEAD branch` line. -/
def envNoBranchLine : GitEnv :=
  { statusOut := "", fetchOut := "", fetchRetryOut := "",
    remoteShowOut := "origin has no head line", checkoutOut := "", pullOut := "" }

/-- A clean repository whose checkout fails. -/
def envCheckoutFail : GitEnv :=
  { statusOut := "", fetchOut := "", fetchRetryOut := "", remoteShowOut := "  HEAD branch: main",
    checkoutOut := "error: pathspec \x27main\x27 did not match any file known to git",
    pullOut := "" }

/-- A clean repository whose first fetch hits a permission failure. -/
def envPermDenied : GitEnv :=
  { statusOut := "", fetchOut := "git@host: Permission denied (publickey).",
    fetchRetryOut := "", remoteShowOut := "", checkoutOut := "", pullOut := "" }

/-- A dirty repository whose fast-forward pull fails. -/
def envForcePullFatal : GitEnv :=
  { statusOut := " M file.txt", fetchOut := "", fetchRetryOut := "", remoteShowOut := "",
    checkoutOut := "", pullOut := "fatal: Not possible to fast-forward, aborting." }

/-- Number of occurrences of a git operation in a trace. -/
def countCmd (c : Cmd) : List Cmd → Nat
  | [] => 0
  | d :: ds => (if d = c then 1 else 0) + countCmd c ds

/-- A repository directory named `A` with no children. -/
def fsA : FSDir := .mk "A" true .nil

/-- A repository directory named `B` with no children. -/
def fsB : FSDir := .mk "B" true .nil

/-- A search root whose children are enumerated as `A` then `B`. -/
def fsBase1 : FSDir := .mk "Extensions" false (.cons fsA (.cons fsB .nil))

/-- The same search root contents, enumerated as `B` then `A`. -/
def fsBase2 : FSDir := .mk "Extensions" false (.cons fsB (.cons fsA .nil))

/-! Helper lemmas shared by the claim theorems. -/

/-- The fetch step issues either one fetch, or fetch-load-fetch exactly
when the first fetch's output contains the permission-denied marker. -/
theorem fetchTrace_cases (o : GitEnv) :
    (pyIn "Permission denied" o.fetchOut = true ∧
      fetchTrace o = [Cmd.fetch, Cmd.loadSSH, Cmd.fetch]) ∨
    (pyIn "Permission denied" o.fetchOut = false ∧ fetchTrace o = [Cmd.fetch]) := by
  unfold fetchTrace
  by_cases hp : pyIn "Permission denied" o.fetchOut = true
  · exact .inl ⟨hp, by simp [hp]⟩
  · exact .inr ⟨by simpa using hp, by simp [hp]⟩

/-- When no line of the remote-info output contains `HEAD branch`, the
branch parse returns `None` without raising. -/
theorem defaultBranchLines_none (ls : List String)
    (h : ∀ l ∈ ls, pyIn "HEAD branch" l = false) :
    defaultBranchLines ls = .ok none := by
  induction ls with
  | nil => rfl
  | cons l rest ih =>
    have hl : pyIn "HEAD branch" l = false := h l (by simp)
    simp only [defaultBranchLines, hl, Bool.false_eq_true, if_false]
    exact ih fun x hx => h x (by simp [hx])

/-- Every successful per-repository run has one of six operation traces,
fixed by the branch of the decision tree that produced the outcome. -/
theorem process_one_trace (latest forceMode : Bool) (o : GitEnv) (out : Outcome)
    (tr : List Cmd) (h : process_one latest forceMode o = .ok (out, tr)) :
    tr = [Cmd.status] ∨
    tr = [Cmd.status, Cmd.stash] ++ fetchTrace o ++ [Cmd.pull] ∨
    tr = [Cmd.status] ++ fetchTrace o ++ [Cmd.remoteShow] ∨
    (∃ b, tr = [Cmd.status] ++ fetchTrace o ++ [Cmd.remoteShow, Cmd.checkout b]) ∨
    (∃ b, tr = [Cmd.status] ++ fetchTrace o ++ [Cmd.remoteShow, Cmd.checkout b, Cmd.pull]) ∨
    tr = [Cmd.status] ++ fetchTrace o ++ [Cmd.pull] := by
  unfold process_one at h
  split at h
  · simp only [Except.ok.injEq, Prod.mk.injEq] at h
    exact .inr (.inl h.2.symm)
  · split at h
    · simp only [Except.ok.injEq, Prod.mk.injEq] at h
      exact .inl h.2.symm
    · split at h
      · split at h
        · exact absurd h (by simp)
        · split at h
          · simp only [Except.ok.injEq, Prod.mk.injEq] at h
            exact .inr (.inr (.inl h.2.symm))
          · split at h
            · simp only [Except.ok.injEq, Prod.mk.injEq] at h
              exact .inr (.inr (.inr (.inl ⟨_, h.2.symm⟩)))
            · split at h
              · simp only [Except.ok.injEq, Prod.mk.injEq] at h
                exact .inr (.inr (.inr (.inr (.inl ⟨_, h.2.symm⟩))))
              · simp only [Except.ok.injEq, Prod.mk.injEq] at h
                exact .inr (.inr (.inr (.inr (.inl ⟨_, h.2.symm⟩))))
      · simp only [Except.ok.injEq, Prod.mk.injEq] at h
        exact .inr (.inr (.inr (.inr (.inr h.2.symm))))

/-! Claim theorems. -/

/-- C1: the spec and the script's own help text say the force-mode stash
never includes untracked files, but the issued command carries `-u`
(include untracked): on a dirty repository with one tracked-modified file
and one untracked file, the untracked file does not remain in the working
tree after the stash. -/
theorem C1_stash_includes_untracked :
    stash_cmd_includes_untracked git_stash_cmd = true ∧
    (stash_effect (stash_cmd_includes_untracked git_stash_cmd)
        { trackedModified := ["file.txt"], untracked := ["new.txt"] }).untracked = [] :=
  ⟨rfl, rfl⟩

/-- C2 counterexample: in plain mode a pull whose captured output contains
`fatal` still yields the ok outcome `pull`; the failure substring is not
inspected outside latest mode. -/
theorem C2_counterexample :
    pyIn "fatal" (pyLower envPlainPullFatal.pullOut) = true ∧
    process_one false false envPlainPullFatal
      = .ok (.ok "pull", [Cmd.status, Cmd.fetch, Cmd.pull]) :=
  ⟨rfl, rfl⟩

/-- C2 (amended): only in latest mode, a checkout whose output contains
`error` or `fatal` (case-insensitive) yields skip `checkout failed`, and a
pull whose output contains such a marker yields skip `pull failed`; in
plain mode a clean repository always yields ok `pull` and in force mode a
dirty repository always yields force `stash + pull`, each with pull in the
trace but with no condition on the pull output, which is never inspected
there. -/
theorem C2_marker_skip_only_latest (o : GitEnv) (b : String) :
    (is_clean o.statusOut = true →
      default_branch o.remoteShowOut = .ok (some b) →
      (b == "") = false →
      ((pyIn "error" (pyLower o.checkoutOut) || pyIn "fatal" (pyLower o.checkoutOut)) = true →
        process_one true false o
          = .ok (.skip "checkout failed",
              [Cmd.status] ++ fetchTrace o ++ [Cmd.remoteShow, Cmd.checkout b])) ∧
      ((pyIn "error" (pyLower o.checkoutOut) || pyIn "fatal" (pyLower o.checkoutOut)) = false →
        (pyIn "error" (pyLower o.pullOut) || pyIn "fatal" (pyLower o.pullOut)) = true →
        process_one true false o
          = .ok (.skip "pull failed",
              [Cmd.status] ++ fetchTrace o ++ [Cmd.remoteShow, Cmd.checkout b, Cmd.pull]))) ∧
    (∀ forceMode, is_clean o.statusOut = true →
      process_one false forceMode o
        = .ok (.ok "pull", [Cmd.status] ++ fetchTrace o ++ [Cmd.pull])) ∧
    (∀ latest, is_clean o.statusOut = false →
      process_one latest true o
        = .ok (.force "stash + pull", [Cmd.status, Cmd.stash] ++ fetchTrace o ++ [Cmd.pull])) := by
  refine ⟨fun hclean hbr hb => ⟨?_, ?_⟩, ?_, ?_⟩
  · intro hco
    unfold process_one
    simp [hclean, hbr, pyFalsy, hb, hco]
  · intro hco hpl
    unfold process_one
    simp [hclean, hbr, pyFalsy, hb, hco, hpl]
  · intro forceMode hclean
    unfold process_one
    simp [hclean]
  · intro latest hdirty
    unfold process_one
    simp [hdirty]

/-- C2 witness: concretely, a clean repository whose checkout output
carries the `error` marker is skipped with reason `checkout failed`; a
clean plain-mode repository and a dirty force-mode repository whose pull
output contains `fatal` still yield ok `pull` and force `stash + pull`. -/
theorem C2_marker_skip_only_latest_witness :
    process_one true false envCheckoutFail
      = .ok (.skip "checkout failed",
          [Cmd.status, Cmd.fetch, Cmd.remoteShow, Cmd.checkout "main"]) ∧
    process_one false false envPlainPullFatal
      = .ok (.ok "pull", [Cmd.status, Cmd.fetch, Cmd.pull]) ∧
    process_one true true envForcePullFatal
      = .ok (.force "stash + pull", [Cmd.status, Cmd.stash, Cmd.fetch, Cmd.pull]) := by
  refine ⟨?_, ?_, ?_⟩
  · have h := ((C2_marker_skip_only_latest envCheckoutFail "main").1 rfl rfl rfl).1 rfl
    have hf : fetchTrace envCheckoutFail = [Cmd.fetch] := rfl
    rw [hf] at h
    simpa using h
  · have h := (C2_marker_skip_only_latest envPlainPullFatal "").2.1 false rfl
    have hf : fetchTrace envPlainPullFatal = [Cmd.fetch] := rfl
    rw [hf] at h
    simpa using h
  · have h := (C2_marker_skip_only_latest envForcePullFatal "").2.2 true rfl
    have hf : fetchTrace envForcePullFatal = [Cmd.fetch] := rfl
    rw [hf] at h
    simpa using h

/-- C3: the engine is supposed to produce one outcome per repository and
never abort the batch, but the uncaught `IndexError` of `default_branch`
escapes: with a bad repository first, the run dies with zero outcomes and
the second (well-formed) repository is never processed, although alone it
would have produced its outcome. -/
theorem C3_batch_abort :
    process true false [envHeadNoColon, envCleanOk] = ([], some "IndexError") ∧
    process true false [envCleanOk] = ([Outcome.ok "latest: main"], none) :=
  ⟨rfl, rfl⟩

/-- C4: the status-line classification is clean exactly when every line
starts with `??`; `["?? new.txt"]` is clean, `[" M file.txt"]` is dirty,
and the empty listing is clean. -/
theorem C4_is_clean_iff :
    (∀ lines : List String,
      is_clean_lines lines = true ↔ ∀ l ∈ lines, pyStartsWith l "??" = true) ∧
    is_clean_lines ["?? new.txt"] = true ∧
    is_clean_lines [" M file.txt"] = false ∧
    is_clean_lines [] = true := by
  refine ⟨?_, rfl, rfl, rfl⟩
  intro lines
  induction lines with
  | nil => simp [is_clean_lines]
  | cons l rest ih =>
    simp only [is_clean_lines]
    by_cases h : pyStartsWith l "??" = true
    · simp [h, ih]
    · simp [h]

/-- C4 witness: a listing of two untracked-marker lines is clean. -/
theorem C4_is_clean_iff_witness :
    is_clean_lines ["?? a", "?? b"] = true :=
  (C4_is_clean_iff.1 ["?? a", "?? b"]).2 (by decide)

/-- C5: in non-force plain mode a dirty repository gets outcome skip with
reason `uncommitted`, only the status inspection is run, and in particular
neither fetch nor pull is invoked. -/
theorem C5_dirty_skip (o : GitEnv) (h : is_clean o.statusOut = false) :
    process_one false false o = .ok (.skip "uncommitted", [Cmd.status]) ∧
    ∀ out tr, process_one false false o = .ok (out, tr) →
      Cmd.fetch ∉ tr ∧ Cmd.pull ∉ tr := by
  have h1 : process_one false false o = .ok (.skip "uncommitted", [Cmd.status]) := by
    unfold process_one
    simp [h]
  refine ⟨h1, ?_⟩
  intro out tr htr
  rw [h1] at htr
  simp only [Except.ok.injEq, Prod.mk.injEq] at htr
  rcases htr with ⟨-, rfl⟩
  exact ⟨by decide, by decide⟩

/-- C5 witness: a repository with one tracked modification is skipped in
plain mode with no fetch or pull. -/
theorem C5_dirty_skip_witness :
    process_one false false envDirty = .ok (.skip "uncommitted", [Cmd.status]) :=
  (C5_dirty_skip envDirty rfl).1

/-- C6: in latest mode, a clean repository whose remote-info output has no
line containing `HEAD branch` is skipped with reason `no default branch`,
and neither checkout nor pull is attempted. -/
theorem C6_no_default_branch (o : GitEnv)
    (hclean : is_clean o.statusOut = true)
    (hb : ∀ l ∈ pySplitlines o.remoteShowOut, pyIn "HEAD branch" l = false) :
    process_one true false o
      = .ok (.skip "no default branch", [Cmd.status] ++ fetchTrace o ++ [Cmd.remoteShow]) ∧
    ∀ out tr, process_one true false o = .ok (out, tr) →
      (∀ b, Cmd.checkout b ∉ tr) ∧ Cmd.pull ∉ tr := by
  have hdb : default_branch o.remoteShowOut = .ok none :=
    defaultBranchLines_none _ hb
  have h1 : process_one true false o
      = .ok (.skip "no default branch", [Cmd.status] ++ fetchTrace o ++ [Cmd.remoteShow]) := by
    unfold process_one
    simp [hclean, hdb, pyFalsy]
  refine ⟨h1, ?_⟩
  intro out tr htr
  rw [h1] at htr
  simp only [Except.ok.injEq, Prod.mk.injEq] at htr
  rcases htr with ⟨-, rfl⟩
  rcases fetchTrace_cases o with ⟨-, hft⟩ | ⟨-, hft⟩ <;> rw [hft] <;>
    exact ⟨fun b => by simp, by simp⟩

/-- C6 witness: a concrete clean repository with no `HEAD branch` line is
skipped with reason `no default branch`. -/
theorem C6_no_default_branch_witness :
    process_one true false envNoBranchLine
      = .ok (.skip "no default branch", [Cmd.status, Cmd.fetch, Cmd.remoteShow]) := by
  have h := (C6_no_default_branch envNoBranchLine rfl (by decide)).1
  have hf : fetchTrace envNoBranchLine = [Cmd.fetch] := rfl
  rw [hf] at h
  simpa using h

/-- C7: fetch is the only retried operation: a successful per-repository
trace contains at most two fetches, contains exactly two fetches (and the
credential-loading step) precisely when fetch ran and its first captured
output contains `Permission denied`, and contains every other operation at
most once. -/
theorem C7_fetch_only_retry (latest forceMode : Bool) (o : GitEnv) (out : Outcome)
    (tr : List Cmd) (h : process_one latest forceMode o = .ok (out, tr)) :
    countCmd Cmd.fetch tr ≤ 2 ∧
    (countCmd Cmd.fetch tr = 2 ↔
      pyIn "Permission denied" o.fetchOut = true ∧ Cmd.fetch ∈ tr) ∧
    (Cmd.loadSSH ∈ tr ↔
      pyIn "Permission denied" o.fetchOut = true ∧ Cmd.fetch ∈ tr) ∧
    countCmd Cmd.stash tr ≤ 1 ∧ countCmd Cmd.pull tr ≤ 1 ∧
    ∀ b, countCmd (Cmd.checkout b) tr ≤ 1 := by
  rcases fetchTrace_cases o with ⟨hp, hft⟩ | ⟨hp, hft⟩ <;>
    rcases process_one_trace latest forceMode o out tr h with
      rfl | rfl | rfl | ⟨b, rfl⟩ | ⟨b, rfl⟩ | rfl <;>
    simp [hft, hp, countCmd] <;>
    intro b' <;> split <;> simp

/-- C7 witness: a clean plain-mode repository whose first fetch output
contains `Permission denied` yields a trace with exactly two fetches. -/
theorem C7_fetch_only_retry_witness :
    countCmd Cmd.fetch [Cmd.status, Cmd.fetch, Cmd.loadSSH, Cmd.fetch, Cmd.pull] = 2 :=
  (C7_fetch_only_retry false false envPermDenied (.ok "pull")
      [Cmd.status, Cmd.fetch, Cmd.loadSSH, Cmd.fetch, Cmd.pull] rfl).2.1.2
    ⟨rfl, by decide⟩

mutual

/-- Mutual auxiliary for C8: `walkRepos` is the filtered pre-order walk. -/
theorem walkRepos_eq_filterAux (t : FSDir) (path : String) :
    walkRepos t path = ((walkAll t path).filter (fun x => x.2)).map (fun x => x.1) := by
  match t with
  | .mk name g cs =>
    cases g
    · simp [walkRepos, walkAll, walkReposList_eq_filterAux cs (path ++ "/" ++ name)]
    · simp [walkRepos, walkAll, walkReposList_eq_filterAux cs (path ++ "/" ++ name)]

/-- Mutual auxiliary for C8, sibling-list form. -/
theorem walkReposList_eq_filterAux (ts : FSList) (path : String) :
    walkReposList ts path
      = ((walkAllList ts path).filter (fun x => x.2)).map (fun x => x.1) := by
  match ts with
  | .nil => simp [walkReposList, walkAllList]
  | .cons d ds =>
    simp [walkReposList, walkAllList, walkRepos_eq_filterAux d path,
      walkReposList_eq_filterAux ds path]

end

/-- C8 (amended): discovery is the depth-first pre-order traversal of the
tree as enumerated by the OS, filtered to directories containing `.git`;
it is a function of the enumerated tree (deterministic given the
enumeration order the OS produces), but the code applies no sorting of its
own. -/
theorem C8_walk_is_preorder_filter (t : FSDir) (path : String) :
    walkRepos t path = ((walkAll t path).filter (fun x => x.2)).map (fun x => x.1) :=
  walkRepos_eq_filterAux t path

/-- C8 counterexample: two trees with identical contents (same root name
and flag, same children up to enumeration order) produce different
repository sequences, so fixed filesystem contents alone do not determine
the discovery order. -/
theorem C8_counterexample :
    fsBase1.name = fsBase2.name ∧
    fsBase1.hasGit = fsBase2.hasGit ∧
    (FSList.toList fsBase1.children).Perm (FSList.toList fsBase2.children) ∧
    walkRepos fsBase1 "" ≠ walkRepos fsBase2 "" := by
  refine ⟨rfl, rfl, ?_, by decide⟩
  have h1 : FSList.toList fsBase1.children = [fsA, fsB] := rfl
  have h2 : FSList.toList fsBase2.children = [fsB, fsA] := rfl
  rw [h1, h2]
  exact List.Perm.swap fsB fsA []

/-- C9: `default_branch` is partial: on remote-info output whose matching
`HEAD branch` line has no colon, the parse raises `IndexError`, which
escapes the per-repository step instead of yielding a skip outcome. -/
theorem C9_default_branch_partial :
    pyIn "HEAD branch" "HEAD branch main" = true ∧
    pyIn ":" "HEAD branch main" = false ∧
    default_branch "HEAD branch main" = .error "IndexError" ∧
    process_one true false envHeadNoColon = .error "IndexError" :=
  ⟨rfl, rfl, rfl, rfl⟩

/-- C10: `--pull` takes precedence: any argument list containing `--pull`
runs with latest disabled and force as given by `--force`; any list with
`--latest` but not `--pull` runs with latest enabled and force disabled. -/
theorem C10_flag_precedence (args : List String) :
    (args.contains "--pull" = true →
      main_dispatch args = .runProcess false (args.contains "--force")) ∧
    (args.contains "--pull" = false → args.contains "--latest" = true →
      main_dispatch args = .runProcess true false) := by
  constructor
  · intro hp
    have hp' : "--pull" ∈ args := List.mem_of_elem_eq_true hp
    have hne : args.isEmpty = false := by
      cases args
      · simp at hp'
      · rfl
    unfold main_dispatch
    simp [hne, hp']
  · intro hp hl
    have hl' : "--latest" ∈ args := List.mem_of_elem_eq_true hl
    have hp' : "--pull" ∉ args := by
      intro hm
      have hc : args.contains "--pull" = true := List.elem_eq_true_of_mem hm
      rw [hp] at hc
      exact Bool.noConfusion hc
    have hne : args.isEmpty = false := by
      cases args
      · simp at hl'
      · rfl
    unfold main_dispatch
    simp [hne, hp', hl']

/-- C10 witness: with `--pull --latest --force` the engine runs plain
force mode; with `--latest --force` it runs latest mode without force. -/
theorem C10_flag_precedence_witness :
    main_dispatch ["--pull", "--latest", "--force"] = .runProcess false true ∧
    main_dispatch ["--latest", "--force"] = .runProcess true false := by
  constructor
  · have h := (C10_flag_precedence ["--pull", "--latest", "--force"]).1 (by decide)
    exact h.trans (by decide)
  · exact (C10_flag_precedence ["--latest", "--force"]).2 (by decide) (by decide)

end RepoManager
